import Mathlib

/-!
Shallow embedding of `src/server.js` (soilws pump-control server).

The server keeps a Postgres table `pump_status` (one row per area, unique
on `area_name`), a read-only table `crop_settings`, and an in-memory
`clients` Map from area name to the live WebSocket session.  We model the
tables as lists of rows (the unique constraint is respected by the code,
which always looks up before inserting, and by the upsert), the Map by an
association list with JS `Map.set` / `Map.get` / `Map.delete` semantics,
timestamps (`NOW()` / `new Date()`) as a `Nat` parameter supplied by the
caller, and a possible failure of a `pool.query` write as a `dbOk : Bool`
flag on the call.  A WebSocket session carries its `readyState` (1 = OPEN)
and an id so that distinct sessions can be told apart.
-/

namespace SoilWS

/-- A live WebSocket session: an identity plus its transport readyState
(`1` means OPEN, as in `ws.readyState === 1` in the source). -/
structure Session where
  sid : Nat
  readyState : Nat
deriving DecidableEq, Repr

/-- One row of the `pump_status` table (the SERIAL `id` column is DB
plumbing and is omitted): `area_name`, `pump_id`, `status`, `mode`,
`last_updated`. -/
structure PumpRow where
  area_name : String
  pump_id : String
  status : Bool
  mode : String
  last_updated : Nat
deriving DecidableEq, Repr

/-- One row of the read-only `crop_settings` table. -/
structure CropRow where
  area_name : String
  crop_name : String
  optimal_moisture : Int
deriving DecidableEq, Repr

/-- The persistent store: the `pump_status` table and the `crop_settings`
table. -/
structure Store where
  pump_status : List PumpRow
  crop_settings : List CropRow
deriving DecidableEq, Repr

/-- The in-memory `clients` Map from area name to WebSocket session. -/
abbrev Registry := List (String × Session)

/-- JS `Map.get`: the value under the key, if present. -/
def mapGet (m : Registry) (k : String) : Option Session :=
  (m.find? (fun p => p.1 == k)).map (fun p => p.2)

/-- JS `Map.set`: overwrite the entry for the key, or append a new one. -/
def mapSet (m : Registry) (k : String) (v : Session) : Registry :=
  if (m.find? (fun p => p.1 == k)).isSome then
    m.map (fun p => if p.1 == k then (k, v) else p)
  else
    m ++ [(k, v)]

/-- JS `Map.delete`: remove every entry under the key. -/
def mapDelete (m : Registry) (k : String) : Registry :=
  m.filter (fun p => !(p.1 == k))

/-- `SELECT * FROM pump_status WHERE area_name = $1` (first row, if any). -/
def pumpLookup (s : Store) (a : String) : Option PumpRow :=
  s.pump_status.find? (fun r => r.area_name == a)

/-- `SELECT * FROM crop_settings WHERE area_name = $1` (first row, if any). -/
def cropLookup (s : Store) (a : String) : Option CropRow :=
  s.crop_settings.find? (fun r => r.area_name == a)

/-- Effect on the row list of
`INSERT INTO pump_status (area_name, pump_id, status, mode, last_updated)
VALUES ($1,$2,$3,$4,NOW()) ON CONFLICT (area_name) DO UPDATE SET
status = $3, mode = $4, last_updated = NOW()`: on conflict the row's
`status`, `mode` and `last_updated` are overwritten but its `pump_id` is
left as it was; otherwise a fresh row is inserted. -/
def upsertList (l : List PumpRow) (a pid : String) (st : Bool) (m : String)
    (now : Nat) : List PumpRow :=
  if (l.find? (fun r => r.area_name == a)).isSome then
    l.map (fun r =>
      if r.area_name == a then
        { r with status := st, mode := m, last_updated := now }
      else r)
  else
    l ++ [⟨a, pid, st, m, now⟩]

/-- The upsert applied to the store. -/
def upsertPumpStatus (s : Store) (a pid : String) (st : Bool) (m : String)
    (now : Nat) : Store :=
  { s with pump_status := upsertList s.pump_status a pid st m now }

/-- `updatePumpStatus(areaName, pumpId, status, mode)`: issues the upsert
and returns `true`; if the query fails (`dbOk = false`) the error is
caught inside the function, the store is unchanged and `false` is
returned — the function never throws. -/
def updatePumpStatus (s : Store) (a pid : String) (st : Bool) (m : String)
    (now : Nat) (dbOk : Bool) : Store × Bool :=
  if dbOk then (upsertPumpStatus s a pid st m now, true) else (s, false)

/-- `broadcastPumpStatus(areaName)`: re-read the row for the area; if none,
return without sending; otherwise look up the client session and, if it
exists and its readyState is OPEN, send it the `pump_status_update`
payload (the row).  The result records the recipient and payload of the
send, if any. -/
def broadcastPumpStatus (s : Store) (reg : Registry) (a : String) :
    Option (Nat × PumpRow) :=
  match pumpLookup s a with
  | none => none
  | some row =>
    match mapGet reg a with
    | none => none
    | some ws => if ws.readyState == 1 then some (ws.sid, row) else none

/-- `sendPumpStatus(areaName, ws)`: read the row for the area; if absent,
synthesize `{area_name, pump_id: pump_<area>, status: false, mode: auto,
last_updated: new Date()}` without writing anything; send the result as a
`pump_status_update` payload on the given session.  Only a `SELECT` is
issued, so the store is not modified; the returned value is the payload
sent. -/
def sendPumpStatus (s : Store) (a : String) (now : Nat) : PumpRow :=
  match pumpLookup s a with
  | none => ⟨a, "pump_" ++ a, false, "auto", now⟩
  | some row => row

/-- `handleSoilMoistureUpdate(data)` with `data = {area_name,
soil_moisture}`: load crop settings (absent ⇒ return untouched); compute
`targetMoisture = optimal_moisture + 10`; load the pump row, lazily
inserting `(area, pump_<area>, false, auto)` when absent; if the mode is
`auto`, compute `newStatus = soil_moisture < targetMoisture` and, only
when it differs from the current status, upsert and broadcast.  Returns
the new store and the broadcast send, if one happened. -/
def handleSoilMoistureUpdate (s : Store) (reg : Registry) (area_name : String)
    (soil_moisture : Int) (now : Nat) : Store × Option (Nat × PumpRow) :=
  match cropLookup s area_name with
  | none => (s, none)
  | some crop =>
    let targetMoisture : Int := crop.optimal_moisture + 10
    let found := pumpLookup s area_name
    let s1 : Store :=
      match found with
      | none =>
        { s with pump_status :=
            s.pump_status ++ [⟨area_name, "pump_" ++ area_name, false, "auto", now⟩] }
      | some _ => s
    let pumpStatus : Bool × String :=
      match found with
      | none => (false, "auto")
      | some r => (r.status, r.mode)
    if pumpStatus.2 == "auto" then
      let newStatus : Bool := decide (soil_moisture < targetMoisture)
      if newStatus != pumpStatus.1 then
        let s2 := upsertPumpStatus s1 area_name ("pump_" ++ area_name) newStatus "auto" now
        (s2, broadcastPumpStatus s2 reg area_name)
      else (s1, none)
    else (s1, none)

/-- The `pump_control` branch of the WebSocket message handler: `await
updatePumpStatus(area, pump_id, status, mode)` — whose returned success
flag is discarded — followed unconditionally by
`broadcastPumpStatus(area)`.  The client supplies the `pump_id`. -/
def wsPumpControl (s : Store) (reg : Registry) (a pid : String) (st : Bool)
    (m : String) (now : Nat) (dbOk : Bool) : Store × Option (Nat × PumpRow) :=
  let r := updatePumpStatus s a pid st m now dbOk
  (r.1, broadcastPumpStatus r.1 reg a)

/-- Outcome of the `POST /api/pumps/:area_name` handler. -/
inductive PostResult
  | badRequest
  | serverError
  | ok
deriving DecidableEq, Repr

/-- `app.post('/api/pumps/:area_name')`: reject with 400 when `status ===
undefined` or `mode` is falsy (absent or empty string), touching nothing;
otherwise call `updatePumpStatus(area, pump_<area>, status, mode)` and,
on success, broadcast and answer 200, else answer 500 without
broadcasting. -/
def postPump (s : Store) (reg : Registry) (a : String) (status : Option Bool)
    (mode : Option String) (now : Nat) (dbOk : Bool) :
    Store × Option (Nat × PumpRow) × PostResult :=
  let modeFalsy : Bool :=
    match mode with
    | none => true
    | some ms => ms == ""
  match status with
  | none => (s, none, PostResult.badRequest)
  | some st =>
    if modeFalsy then (s, none, PostResult.badRequest)
    else
      match mode with
      | none => (s, none, PostResult.badRequest)
      | some ms =>
        let r := updatePumpStatus s a ("pump_" ++ a) st ms now dbOk
        if r.2 then
          (r.1, broadcastPumpStatus r.1 reg a, PostResult.ok)
        else
          (r.1, none, PostResult.serverError)

/-- An operator command on the success path, common to both transports:
upsert the desired status and mode, then broadcast for the area. -/
def applyOperatorCommand (s : Store) (reg : Registry) (a pid : String)
    (st : Bool) (m : String) (now : Nat) : Store × Option (Nat × PumpRow) :=
  let s1 := upsertPumpStatus s a pid st m now
  (s1, broadcastPumpStatus s1 reg a)

/-- `wss.on('connection')`: extract the area from the URL (an absent or
empty area is falsy and skips registration), `clients.set(area, ws)`
otherwise, then `sendPumpStatus(area, ws)`.  Returns the updated registry
and the payload pushed to the fresh session. -/
def wsConnection (s : Store) (reg : Registry) (areaName : String)
    (ws : Session) (now : Nat) : Registry × PumpRow :=
  let reg1 := if areaName == "" then reg else mapSet reg areaName ws
  (reg1, sendPumpStatus s areaName now)

/-- `ws.on('close')`: `clients.delete(areaName)` whenever the captured
area name is truthy — with no check that the registered session is the
closing one. -/
def wsClose (reg : Registry) (areaName : String) : Registry :=
  if areaName == "" then reg else mapDelete reg areaName

/-- The mode the soil-moisture handler acts on: the persisted row's mode,
or `auto` for the lazily created row when no row exists yet. -/
def effectiveMode (s : Store) (a : String) : String :=
  match pumpLookup s a with
  | none => "auto"
  | some r => r.mode

/-- Forget a row's `last_updated` timestamp. -/
def rowEraseTime (r : PumpRow) : PumpRow :=
  { r with last_updated := 0 }

/-- Forget every `last_updated` timestamp in the store. -/
def storeEraseTime (s : Store) : Store :=
  { s with pump_status := s.pump_status.map rowEraseTime }

/-- Every persisted pump row names its actuator `pump_<area_name>`. -/
def pumpIdInv (s : Store) : Prop :=
  ∀ r ∈ s.pump_status, r.pump_id = "pump_" ++ r.area_name

instance (s : Store) : Decidable (pumpIdInv s) := by
  unfold pumpIdInv; infer_instance

/-! Helper lemmas about `find?` and the upsert. -/

/-- The row-overwriting function used by the conflict branch of the
upsert. -/
def updRow (st : Bool) (m : String) (now : Nat) (r : PumpRow) : PumpRow :=
  { r with status := st, mode := m, last_updated := now }

theorem updRow_area (st : Bool) (m : String) (now : Nat) (r : PumpRow) :
    (updRow st m now r).area_name = r.area_name := rfl

theorem updRow_twice (st : Bool) (m : String) (t1 t2 : Nat) (r : PumpRow) :
    updRow st m t2 (updRow st m t1 r) = updRow st m t2 r := by
  cases r
  rfl

theorem upsertList_of_found (l : List PumpRow) (a pid : String) (st : Bool)
    (m : String) (now : Nat) (r0 : PumpRow)
    (hf : l.find? (fun r => r.area_name == a) = some r0) :
    upsertList l a pid st m now
      = l.map (fun r => if r.area_name == a then updRow st m now r else r) := by
  unfold upsertList
  rw [hf]
  rfl

theorem upsertList_of_none (l : List PumpRow) (a pid : String) (st : Bool)
    (m : String) (now : Nat)
    (hf : l.find? (fun r => r.area_name == a) = none) :
    upsertList l a pid st m now = l ++ [⟨a, pid, st, m, now⟩] := by
  unfold upsertList
  rw [hf]
  rfl

theorem rowEraseTime_updRow (st : Bool) (m : String) (t : Nat) (r : PumpRow) :
    rowEraseTime (updRow st m t r) = updRow st m 0 r := by
  cases r
  rfl

theorem pred_comp_upd (a : String) (st : Bool) (m : String) (now : Nat) :
    ((fun r : PumpRow => r.area_name == a) ∘
        (fun r => if r.area_name == a then updRow st m now r else r))
      = (fun r : PumpRow => r.area_name == a) := by
  funext r
  by_cases h : r.area_name = a <;> simp [h, updRow]

theorem find_map_update (l : List PumpRow) (a : String) (st : Bool)
    (m : String) (now : Nat) :
    (l.map (fun r => if r.area_name == a then updRow st m now r else r)).find?
        (fun r => r.area_name == a)
      = (l.find? (fun r => r.area_name == a)).map (updRow st m now) := by
  rw [List.find?_map, pred_comp_upd]
  cases hf : l.find? (fun r => r.area_name == a) with
  | none => rfl
  | some r0 =>
    have hp : r0.area_name = a := by simpa using List.find?_some hf
    simp [hp]

theorem find_append_single (l : List PumpRow) (x : PumpRow)
    (p : PumpRow → Bool) (hl : l.find? p = none) (hx : p x = true) :
    (l ++ [x]).find? p = some x := by
  rw [List.find?_append, hl]
  simp [List.find?_cons_of_pos _ hx]

theorem find_upsert (l : List PumpRow) (a pid : String) (st : Bool)
    (m : String) (now : Nat) :
    (upsertList l a pid st m now).find? (fun r => r.area_name == a)
      = some (match l.find? (fun r => r.area_name == a) with
              | some r => updRow st m now r
              | none => ⟨a, pid, st, m, now⟩) := by
  cases hf : l.find? (fun r => r.area_name == a) with
  | some r0 =>
    rw [upsertList_of_found l a pid st m now r0 hf, find_map_update, hf]
    rfl
  | none =>
    rw [upsertList_of_none l a pid st m now hf]
    exact find_append_single l _ _ hf (by simp)

theorem map_upd_of_none (l : List PumpRow) (a : String) (st : Bool)
    (m : String) (now : Nat)
    (hf : l.find? (fun r => r.area_name == a) = none) :
    (l.map fun r => if r.area_name == a then updRow st m now r else r) = l := by
  have hall := List.find?_eq_none.mp hf
  have h1 : (l.map fun r => if r.area_name == a then updRow st m now r else r)
      = l.map id := by
    apply List.map_congr_left
    intro r hr
    have h2 : ¬ (r.area_name == a) = true := by simpa using hall r hr
    rw [if_neg h2]
    rfl
  rw [h1, List.map_id]

theorem upsert_upsert (l : List PumpRow) (a pid pid2 : String) (st : Bool)
    (m : String) (t1 t2 : Nat) :
    upsertList (upsertList l a pid st m t1) a pid2 st m t2
      = upsertList l a pid st m t2 := by
  cases hf : l.find? (fun r => r.area_name == a) with
  | some r0 =>
    have h1 : (l.map fun r =>
        if r.area_name == a then updRow st m t1 r else r).find?
        (fun r => r.area_name == a) = some (updRow st m t1 r0) := by
      rw [find_map_update, hf]
      rfl
    rw [upsertList_of_found l a pid st m t1 r0 hf,
      upsertList_of_found _ a pid2 st m t2 _ h1,
      upsertList_of_found l a pid st m t2 r0 hf, List.map_map]
    apply List.map_congr_left
    intro r _
    by_cases h : r.area_name = a <;>
      simp [Function.comp, h, updRow_area, updRow_twice]
  | none =>
    have h1 : ((l ++ [(⟨a, pid, st, m, t1⟩ : PumpRow)]).find?
        (fun r => r.area_name == a)) = some ⟨a, pid, st, m, t1⟩ :=
      find_append_single l _ _ hf (by simp)
    rw [upsertList_of_none l a pid st m t1 hf,
      upsertList_of_found _ a pid2 st m t2 _ h1,
      upsertList_of_none l a pid st m t2 hf,
      List.map_append, map_upd_of_none l a st m t2 hf]
    simp [updRow]

theorem upsert_erase_time (l : List PumpRow) (a pid : String) (st : Bool)
    (m : String) (t1 t2 : Nat) :
    (upsertList l a pid st m t1).map rowEraseTime
      = (upsertList l a pid st m t2).map rowEraseTime := by
  cases hf : l.find? (fun r => r.area_name == a) with
  | some r0 =>
    rw [upsertList_of_found l a pid st m t1 r0 hf,
      upsertList_of_found l a pid st m t2 r0 hf, List.map_map, List.map_map]
    apply List.map_congr_left
    intro r _
    by_cases h : r.area_name = a <;>
      simp [Function.comp, h, rowEraseTime_updRow]
  | none =>
    rw [upsertList_of_none l a pid st m t1 hf,
      upsertList_of_none l a pid st m t2 hf, List.map_append, List.map_append]
    simp [rowEraseTime]

theorem upsert_pumpIdInv (l : List PumpRow) (a : String) (st : Bool)
    (m : String) (now : Nat)
    (hinv : ∀ r ∈ l, r.pump_id = "pump_" ++ r.area_name) :
    ∀ r ∈ upsertList l a ("pump_" ++ a) st m now,
      r.pump_id = "pump_" ++ r.area_name := by
  cases hf : l.find? (fun r => r.area_name == a) with
  | some r0 =>
    rw [upsertList_of_found l a ("pump_" ++ a) st m now r0 hf]
    intro r hr
    obtain ⟨r1, hr1, hre⟩ := List.mem_map.mp hr
    rw [← hre]
    by_cases h : r1.area_name = a
    · simp [h, updRow]
      rw [← h]
      exact hinv r1 hr1
    · simp [h, updRow]
      exact hinv r1 hr1
  | none =>
    rw [upsertList_of_none l a ("pump_" ++ a) st m now hf]
    intro r hr
    rcases List.mem_append.mp hr with h | h
    · exact hinv r h
    · rw [List.mem_singleton.mp h]

theorem upsert_pumpIdInv_found (l : List PumpRow) (a pid : String) (st : Bool)
    (m : String) (now : Nat) (r0 : PumpRow)
    (hf : l.find? (fun r => r.area_name == a) = some r0)
    (hinv : ∀ r ∈ l, r.pump_id = "pump_" ++ r.area_name) :
    ∀ r ∈ upsertList l a pid st m now, r.pump_id = "pump_" ++ r.area_name := by
  rw [upsertList_of_found l a pid st m now r0 hf]
  intro r hr
  obtain ⟨r1, hr1, hre⟩ := List.mem_map.mp hr
  rw [← hre]
  by_cases h : r1.area_name = a
  · simp [h, updRow]
    rw [← h]
    exact hinv r1 hr1
  · simp [h, updRow]
    exact hinv r1 hr1

/-! The claims. -/

/-- C1: for every area in auto mode that has crop settings with optimal
moisture `m`, processing a soil-moisture reading `r` leaves the area's
pump status equal to `true` if and only if `r < m + 10`. -/
theorem auto_reading_status_iff_below_target (s : Store) (reg : Registry)
    (a : String) (soil : Int) (c : CropRow) (now : Nat)
    (hc : cropLookup s a = some c) (hm : effectiveMode s a = "auto") :
    ∃ r : PumpRow,
      pumpLookup (handleSoilMoistureUpdate s reg a soil now).1 a = some r
        ∧ (r.status = true ↔ soil < c.optimal_moisture + 10) := by
  unfold effectiveMode at hm
  cases hp : pumpLookup s a with
  | none =>
    rw [hp] at hm
    have hp2 : s.pump_status.find? (fun r => r.area_name == a) = none := hp
    have hfind : (s.pump_status ++
          [(⟨a, "pump_" ++ a, false, "auto", now⟩ : PumpRow)]).find?
          (fun r => r.area_name == a)
        = some ⟨a, "pump_" ++ a, false, "auto", now⟩ :=
      find_append_single _ _ _ hp (by simp)
    by_cases hlt : soil < c.optimal_moisture + 10
    · refine ⟨⟨a, "pump_" ++ a, true, "auto", now⟩, ?_, by simp [hlt]⟩
      simp only [handleSoilMoistureUpdate, hc, hp]
      simp only [hlt, decide_True]
      simp [pumpLookup, upsertPumpStatus, find_upsert, hp2, updRow]
    · refine ⟨⟨a, "pump_" ++ a, false, "auto", now⟩, ?_, by simp [hlt]⟩
      simp only [handleSoilMoistureUpdate, hc, hp]
      simp only [hlt, decide_False]
      simp [pumpLookup, hp2]
  | some r0 =>
    rw [hp] at hm
    simp only [] at hm
    have hp2 : s.pump_status.find? (fun r => r.area_name == a) = some r0 := hp
    by_cases hlt : soil < c.optimal_moisture + 10
    · cases hst : r0.status with
      | true =>
        refine ⟨r0, ?_, by simp [hst, hlt]⟩
        simp only [handleSoilMoistureUpdate, hc, hp, hm, hst]
        simp only [hlt, decide_True]
        simp [pumpLookup, hp2]
      | false =>
        refine ⟨updRow true "auto" now r0, ?_, by simp [updRow, hlt]⟩
        simp only [handleSoilMoistureUpdate, hc, hp, hm, hst]
        simp only [hlt, decide_True]
        simp [pumpLookup, upsertPumpStatus, find_upsert, hp2]
    · cases hst : r0.status with
      | true =>
        refine ⟨updRow false "auto" now r0, ?_, by simp [updRow, hlt]⟩
        simp only [handleSoilMoistureUpdate, hc, hp, hm, hst]
        simp only [hlt, decide_False]
        simp [pumpLookup, upsertPumpStatus, find_upsert, hp2]
      | false =>
        refine ⟨r0, ?_, by simp [hst, hlt]⟩
        simp only [handleSoilMoistureUpdate, hc, hp, hm, hst]
        simp only [hlt, decide_False]
        simp [pumpLookup, hp2]

/-- Witness for C1 at a concrete input: area `f1` with optimal moisture
40, reading 45, no pump row yet. -/
theorem auto_reading_status_iff_below_target_witness :
    ∃ r : PumpRow,
      pumpLookup (handleSoilMoistureUpdate
          ⟨[], [⟨"f1", "wheat", 40⟩]⟩ [] "f1" 45 7).1 "f1" = some r
        ∧ (r.status = true ↔ (45 : Int) < 40 + 10) :=
  auto_reading_status_iff_below_target ⟨[], [⟨"f1", "wheat", 40⟩]⟩ [] "f1" 45
    ⟨"f1", "wheat", 40⟩ 7 (by decide) (by decide)

/-- C2: for every area whose persisted mode is `manual`, processing a
soil-moisture reading changes neither the area's `status` nor its `mode`:
the whole store is left untouched and nothing is broadcast. -/
theorem manual_reading_is_noop (s : Store) (reg : Registry) (a : String)
    (soil : Int) (now : Nat) (r : PumpRow)
    (hr : pumpLookup s a = some r) (hm : r.mode = "manual") :
    handleSoilMoistureUpdate s reg a soil now = (s, none) := by
  cases hc : cropLookup s a with
  | none => simp [handleSoilMoistureUpdate, hc]
  | some c =>
    simp only [handleSoilMoistureUpdate, hc, hr, hm]
    simp

/-- Witness for C2: a manual area with crop settings; the reading leaves
the store exactly as it was and sends nothing. -/
theorem manual_reading_is_noop_witness :
    handleSoilMoistureUpdate
        ⟨[⟨"f1", "pump_f1", true, "manual", 3⟩], [⟨"f1", "wheat", 40⟩]⟩
        [("f1", ⟨1, 1⟩)] "f1" 0 9
      = (⟨[⟨"f1", "pump_f1", true, "manual", 3⟩], [⟨"f1", "wheat", 40⟩]⟩, none) :=
  manual_reading_is_noop
    ⟨[⟨"f1", "pump_f1", true, "manual", 3⟩], [⟨"f1", "wheat", 40⟩]⟩
    [("f1", ⟨1, 1⟩)] "f1" 0 9 ⟨"f1", "pump_f1", true, "manual", 3⟩
    (by decide) (by decide)

/-- C3: for a reading on an auto-mode area with crop settings and a
persisted row, if the computed desired status equals the persisted status
then no write and no broadcast happen: the store and the wire are left
untouched. -/
theorem unchanged_reading_skipped (s : Store) (reg : Registry) (a : String)
    (soil : Int) (now : Nat) (c : CropRow) (r : PumpRow)
    (hc : cropLookup s a = some c) (hr : pumpLookup s a = some r)
    (hm : r.mode = "auto")
    (heq : decide (soil < c.optimal_moisture + 10) = r.status) :
    handleSoilMoistureUpdate s reg a soil now = (s, none) := by
  simp only [handleSoilMoistureUpdate, hc, hr, hm]
  simp [heq]

/-- Witness for C3: a dry-enough reading (60 against target 50) on an
auto area already off; the reading is a no-op even with a live session
registered. -/
theorem unchanged_reading_skipped_witness :
    handleSoilMoistureUpdate
        ⟨[⟨"f1", "pump_f1", false, "auto", 3⟩], [⟨"f1", "wheat", 40⟩]⟩
        [("f1", ⟨1, 1⟩)] "f1" 60 9
      = (⟨[⟨"f1", "pump_f1", false, "auto", 3⟩], [⟨"f1", "wheat", 40⟩]⟩, none) :=
  unchanged_reading_skipped
    ⟨[⟨"f1", "pump_f1", false, "auto", 3⟩], [⟨"f1", "wheat", 40⟩]⟩
    [("f1", ⟨1, 1⟩)] "f1" 60 9 ⟨"f1", "wheat", 40⟩
    ⟨"f1", "pump_f1", false, "auto", 3⟩ (by decide) (by decide) (by decide)
    (by decide)

/-- Counterexample to C4 as stated: on the streaming `pump_control` path a
failed persistence (store left with the old row, desired `status := true`
not written) still results in a broadcast, pushing the stale row to the
registered open session. -/
theorem pump_control_persist_fail_still_broadcasts :
    wsPumpControl ⟨[⟨"a", "pump_a", false, "manual", 0⟩], []⟩
        [("a", ⟨1, 1⟩)] "a" "pump_a" true "manual" 5 false
      = (⟨[⟨"a", "pump_a", false, "manual", 0⟩], []⟩,
          some (1, ⟨"a", "pump_a", false, "manual", 0⟩)) := by decide

/-- C4 amended: on the POST endpoint a persistence failure yields a 500
and no broadcast; on the streaming `pump_control` path the failure is
swallowed (store unchanged) and the broadcast step still runs against the
unchanged store. -/
theorem operator_command_persist_fail (s : Store) (reg : Registry)
    (a pid m : String) (st : Bool) (now : Nat) (hm : m ≠ "") :
    postPump s reg a (some st) (some m) now false
        = (s, none, PostResult.serverError)
      ∧ (wsPumpControl s reg a pid st m now false).1 = s
      ∧ (wsPumpControl s reg a pid st m now false).2
          = broadcastPumpStatus s reg a := by
  refine ⟨?_, rfl, rfl⟩
  have hm2 : (m == "") = false := by simpa using hm
  simp [postPump, updatePumpStatus, hm2]

/-- Witness for the amended C4 at a concrete input. -/
theorem operator_command_persist_fail_witness :
    postPump ⟨[], []⟩ [] "b" (some true) (some "manual") 4 false
        = (⟨[], []⟩, none, PostResult.serverError)
      ∧ (wsPumpControl ⟨[], []⟩ [] "b" "p" true "manual" 4 false).1 = ⟨[], []⟩
      ∧ (wsPumpControl ⟨[], []⟩ [] "b" "p" true "manual" 4 false).2
          = broadcastPumpStatus ⟨[], []⟩ [] "b" :=
  operator_command_persist_fail ⟨[], []⟩ [] "b" "p" "manual" true 4 (by decide)

/-- Counterexample to C5 as stated: after session 1 and then session 2
connect for area `a` (session 2 is the registered one and differs from
session 1), running the close handler of the stale session 1 removes the
mapping, evicting the newer live session 2. -/
theorem stale_close_evicts_newer_session :
    mapGet ((wsConnection ⟨[], []⟩
          ((wsConnection ⟨[], []⟩ [] "a" ⟨1, 1⟩ 0).1) "a" ⟨2, 1⟩ 0).1) "a"
        = some ⟨2, 1⟩
      ∧ (⟨2, 1⟩ : Session) ≠ ⟨1, 1⟩
      ∧ mapGet (wsClose ((wsConnection ⟨[], []⟩
          ((wsConnection ⟨[], []⟩ [] "a" ⟨1, 1⟩ 0).1) "a" ⟨2, 1⟩ 0).1) "a") "a"
        = none := by decide

/-- C5 amended: the close handler unregisters unconditionally — any close
whose captured area name is nonempty deletes the registry mapping for
that area, whichever session is currently registered. -/
theorem close_unregisters_unconditionally (reg : Registry) (a : String)
    (h : a ≠ "") : mapGet (wsClose reg a) a = none := by
  simp only [wsClose]
  rw [if_neg (by simpa using h)]
  simp only [mapGet, mapDelete]
  rw [Option.map_eq_none', List.find?_eq_none]
  intro x hx
  have h2 := (List.mem_filter.mp hx).2
  simp at h2
  simp [h2]

/-- Witness for the amended C5 at a concrete input. -/
theorem close_unregisters_unconditionally_witness :
    mapGet (wsClose [("a", ⟨2, 1⟩)] "a") "a" = none :=
  close_unregisters_unconditionally [("a", ⟨2, 1⟩)] "a" (by decide)

/-- C6: a streaming status query for an area with no persisted row
answers the synthesized default `{status: false, mode: auto, pump_id:
pump_<area>}`; `sendPumpStatus` issues only a `SELECT`, so it takes the
store read-only and cannot create or modify a row. -/
theorem query_unknown_area_synthesizes_default (s : Store) (a : String)
    (now : Nat) (h : pumpLookup s a = none) :
    sendPumpStatus s a now = ⟨a, "pump_" ++ a, false, "auto", now⟩ := by
  simp [sendPumpStatus, h]

/-- Witness for C6: the spec's scenario area `field9`, never written. -/
theorem query_unknown_area_synthesizes_default_witness :
    sendPumpStatus ⟨[], []⟩ "field9" 2
      = ⟨"field9", "pump_field9", false, "auto", 2⟩ :=
  query_unknown_area_synthesizes_default ⟨[], []⟩ "field9" 2 (by decide)

theorem handle_preserves_pumpIdInv (s : Store) (reg : Registry) (a : String)
    (soil : Int) (now : Nat) (hinv : pumpIdInv s) :
    pumpIdInv (handleSoilMoistureUpdate s reg a soil now).1 := by
  cases hc : cropLookup s a with
  | none => simpa [handleSoilMoistureUpdate, hc] using hinv
  | some c =>
    cases hp : pumpLookup s a with
    | none =>
      have hinv1 : ∀ r ∈ s.pump_status ++
          [(⟨a, "pump_" ++ a, false, "auto", now⟩ : PumpRow)],
          r.pump_id = "pump_" ++ r.area_name := by
        intro r hr
        rcases List.mem_append.mp hr with h | h
        · exact hinv r h
        · rw [List.mem_singleton.mp h]
      by_cases hlt : soil < c.optimal_moisture + 10
      · have hred : (handleSoilMoistureUpdate s reg a soil now).1
            = upsertPumpStatus
                { s with pump_status := s.pump_status ++
                    [⟨a, "pump_" ++ a, false, "auto", now⟩] }
                a ("pump_" ++ a) true "auto" now := by
          simp only [handleSoilMoistureUpdate, hc, hp]
          simp [hlt]
        rw [hred]
        exact upsert_pumpIdInv _ a true "auto" now hinv1
      · have hred : (handleSoilMoistureUpdate s reg a soil now).1
            = { s with pump_status := s.pump_status ++
                  [⟨a, "pump_" ++ a, false, "auto", now⟩] } := by
          simp only [handleSoilMoistureUpdate, hc, hp]
          simp [hlt]
        rw [hred]
        exact hinv1
    | some r0 =>
      by_cases hmode : r0.mode = "auto"
      · cases hd : decide (soil < c.optimal_moisture + 10) with
        | true =>
          cases hst : r0.status with
          | true =>
            have hred : (handleSoilMoistureUpdate s reg a soil now).1 = s := by
              simp only [handleSoilMoistureUpdate, hc, hp, hmode]
              simp [hd, hst]
            rw [hred]
            exact hinv
          | false =>
            have hred : (handleSoilMoistureUpdate s reg a soil now).1
                = upsertPumpStatus s a ("pump_" ++ a) true "auto" now := by
              simp only [handleSoilMoistureUpdate, hc, hp, hmode]
              simp [hd, hst]
            rw [hred]
            exact upsert_pumpIdInv s.pump_status a true "auto" now hinv
        | false =>
          cases hst : r0.status with
          | true =>
            have hred : (handleSoilMoistureUpdate s reg a soil now).1
                = upsertPumpStatus s a ("pump_" ++ a) false "auto" now := by
              simp only [handleSoilMoistureUpdate, hc, hp, hmode]
              simp [hd, hst]
            rw [hred]
            exact upsert_pumpIdInv s.pump_status a false "auto" now hinv
          | false =>
            have hred : (handleSoilMoistureUpdate s reg a soil now).1 = s := by
              simp only [handleSoilMoistureUpdate, hc, hp, hmode]
              simp [hd, hst]
            rw [hred]
            exact hinv
      · have hred : (handleSoilMoistureUpdate s reg a soil now).1 = s := by
          simp only [handleSoilMoistureUpdate, hc, hp]
          simp [hmode]
        rw [hred]
        exact hinv

/-- Counterexample to C7 as stated: starting from the empty store (which
satisfies the pump-id invariant), one streaming `pump_control` message
with a client-chosen `pump_id` of `"x"` creates the row for area `a`
with `pump_id = "x"`, not `"pump_a"`. -/
theorem streaming_control_breaks_pump_id :
    pumpIdInv ⟨[], []⟩
      ∧ (wsPumpControl ⟨[], []⟩ [] "a" "x" true "manual" 0 true).1
          = ⟨[⟨"a", "x", true, "manual", 0⟩], []⟩
      ∧ ¬ pumpIdInv (wsPumpControl ⟨[], []⟩ [] "a" "x" true "manual" 0 true).1 := by
  refine ⟨by decide, by decide, by decide⟩

/-- C7 amended: the sensor path and the POST path always derive the pump
id from the area name, so they preserve the invariant `pump_id =
pump_<area_name>`; the streaming `pump_control` path preserves it
whenever a row for the area already exists (the upsert never rewrites
`pump_id` on conflict), but on first creation it stores the
client-supplied `pump_id`, which need not be `pump_<area_name>`. -/
theorem pump_id_invariant_amended (s : Store) (reg : Registry)
    (a pid ms : String) (st : Bool) (soil : Int) (now : Nat)
    (hinv : pumpIdInv s) (hm : ms ≠ "") :
    pumpIdInv (handleSoilMoistureUpdate s reg a soil now).1
      ∧ pumpIdInv (postPump s reg a (some st) (some ms) now true).1
      ∧ (∀ r0 : PumpRow, pumpLookup s a = some r0 →
          pumpIdInv (wsPumpControl s reg a pid st ms now true).1) := by
  have hm2 : (ms == "") = false := by simpa using hm
  refine ⟨handle_preserves_pumpIdInv s reg a soil now hinv, ?_, ?_⟩
  · have hred : (postPump s reg a (some st) (some ms) now true).1
        = upsertPumpStatus s a ("pump_" ++ a) st ms now := by
      simp [postPump, updatePumpStatus, hm2]
    rw [hred]
    exact upsert_pumpIdInv s.pump_status a st ms now hinv
  · intro r0 hr0
    have hred : (wsPumpControl s reg a pid st ms now true).1
        = upsertPumpStatus s a pid st ms now := by
      simp [wsPumpControl, updatePumpStatus]
    rw [hred]
    exact upsert_pumpIdInv_found s.pump_status a pid st ms now r0 hr0 hinv

/-- Witness for the amended C7 at a concrete input: a store with one
compliant row for area `a`; all three paths keep every `pump_id`
derived from its area name. -/
theorem pump_id_invariant_amended_witness :
    pumpIdInv (handleSoilMoistureUpdate
        ⟨[⟨"a", "pump_a", false, "auto", 0⟩], [⟨"a", "rice", 30⟩]⟩
        [] "a" 5 1).1
      ∧ pumpIdInv (postPump
          ⟨[⟨"a", "pump_a", false, "auto", 0⟩], [⟨"a", "rice", 30⟩]⟩
          [] "a" (some true) (some "manual") 1 true).1
      ∧ pumpIdInv (wsPumpControl
          ⟨[⟨"a", "pump_a", false, "auto", 0⟩], [⟨"a", "rice", 30⟩]⟩
          [] "a" "x" true "manual" 1 true).1 := by
  have h := pump_id_invariant_amended
    ⟨[⟨"a", "pump_a", false, "auto", 0⟩], [⟨"a", "rice", 30⟩]⟩
    [] "a" "x" "manual" true 5 1 (by decide) (by decide)
  exact ⟨h.1, h.2.1, h.2.2 ⟨"a", "pump_a", false, "auto", 0⟩ (by decide)⟩

/-- C8: a POST operator command whose body is missing `status` or missing
`mode` (the empty body misses both) is answered 400 and mutates nothing:
store unchanged, nothing broadcast. -/
theorem post_missing_field_rejected (s : Store) (reg : Registry) (a : String)
    (status : Option Bool) (mode : Option String) (now : Nat) (dbOk : Bool)
    (h : status = none ∨ mode = none) :
    postPump s reg a status mode now dbOk = (s, none, PostResult.badRequest) := by
  rcases h with h | h
  · simp [postPump, h]
  · cases status with
    | none => simp [postPump]
    | some st => simp [postPump, h]

/-- Witness for C8: the spec's scenario — `POST /pumps/field1` with the
empty body. -/
theorem post_missing_field_rejected_witness :
    postPump ⟨[], []⟩ [] "field1" none none 0 true
      = (⟨[], []⟩, none, PostResult.badRequest) :=
  post_missing_field_rejected ⟨[], []⟩ [] "field1" none none 0 true (Or.inl rfl)

theorem upsertPumpStatus_twice (s : Store) (a pid pid2 : String) (st : Bool)
    (m : String) (t1 t2 : Nat) :
    upsertPumpStatus (upsertPumpStatus s a pid st m t1) a pid2 st m t2
      = upsertPumpStatus s a pid st m t2 := by
  cases s with
  | mk ps cs =>
    simp only [upsertPumpStatus]
    rw [upsert_upsert]

theorem storeEraseTime_upsert (s : Store) (a pid : String) (st : Bool)
    (m : String) (t1 t2 : Nat) :
    storeEraseTime (upsertPumpStatus s a pid st m t1)
      = storeEraseTime (upsertPumpStatus s a pid st m t2) := by
  cases s with
  | mk ps cs =>
    simp only [upsertPumpStatus, storeEraseTime]
    rw [upsert_erase_time]

theorem broadcast_upsert_erase (s : Store) (reg : Registry) (a pid : String)
    (st : Bool) (m : String) (t1 t2 : Nat) :
    (broadcastPumpStatus (upsertPumpStatus s a pid st m t1) reg a).map
        (fun p => (p.1, rowEraseTime p.2))
      = (broadcastPumpStatus (upsertPumpStatus s a pid st m t2) reg a).map
          (fun p => (p.1, rowEraseTime p.2)) := by
  simp only [broadcastPumpStatus, pumpLookup, upsertPumpStatus]
  rw [find_upsert, find_upsert]
  cases hf : s.pump_status.find? (fun r => r.area_name == a) with
  | some r =>
    cases hg : mapGet reg a with
    | none => simp
    | some ws =>
      cases hrs : (ws.readyState == 1) with
      | true => simp [hrs, rowEraseTime_updRow]
      | false => simp [hrs]
  | none =>
    cases hg : mapGet reg a with
    | none => simp
    | some ws =>
      cases hrs : (ws.readyState == 1) with
      | true => simp [hrs, rowEraseTime]
      | false => simp [hrs]

/-- Counterexample to C9 as stated: the same operator command applied a
second time (at a later write time) leaves a persisted state that
differs from the state after the first application, and the second
broadcast payload differs from the first — `last_updated` is refreshed
by every write. -/
theorem repeat_command_not_literally_idempotent :
    ((applyOperatorCommand
          (applyOperatorCommand ⟨[], []⟩ [("a", ⟨1, 1⟩)] "a" "pump_a" true "manual" 0).1
          [("a", ⟨1, 1⟩)] "a" "pump_a" true "manual" 1).1
        ≠ (applyOperatorCommand ⟨[], []⟩ [("a", ⟨1, 1⟩)] "a" "pump_a" true "manual" 0).1)
      ∧ ((applyOperatorCommand
          (applyOperatorCommand ⟨[], []⟩ [("a", ⟨1, 1⟩)] "a" "pump_a" true "manual" 0).1
          [("a", ⟨1, 1⟩)] "a" "pump_a" true "manual" 1).2
        ≠ (applyOperatorCommand ⟨[], []⟩ [("a", ⟨1, 1⟩)] "a" "pump_a" true "manual" 0).2) := by
  refine ⟨by decide, by decide⟩

/-- C9 amended: applying the same operator command twice is idempotent up
to `last_updated`: the persisted state after the second application
equals the state after the first except that `last_updated` is refreshed,
and the second broadcast payload is identical except `last_updated`. -/
theorem repeat_command_idempotent_up_to_timestamp (s : Store) (reg : Registry)
    (a pid : String) (st : Bool) (m : String) (t1 t2 : Nat) :
    storeEraseTime (applyOperatorCommand
          (applyOperatorCommand s reg a pid st m t1).1 reg a pid st m t2).1
        = storeEraseTime (applyOperatorCommand s reg a pid st m t1).1
      ∧ ((applyOperatorCommand
          (applyOperatorCommand s reg a pid st m t1).1 reg a pid st m t2).2).map
            (fun p => (p.1, rowEraseTime p.2))
        = ((applyOperatorCommand s reg a pid st m t1).2).map
            (fun p => (p.1, rowEraseTime p.2)) := by
  constructor
  · show storeEraseTime
        (upsertPumpStatus (upsertPumpStatus s a pid st m t1) a pid st m t2)
      = storeEraseTime (upsertPumpStatus s a pid st m t1)
    rw [upsertPumpStatus_twice]
    exact storeEraseTime_upsert s a pid st m t2 t1
  · show (broadcastPumpStatus
          (upsertPumpStatus (upsertPumpStatus s a pid st m t1) a pid st m t2)
          reg a).map (fun p => (p.1, rowEraseTime p.2))
      = (broadcastPumpStatus (upsertPumpStatus s a pid st m t1) reg a).map
          (fun p => (p.1, rowEraseTime p.2))
    rw [upsertPumpStatus_twice]
    exact broadcast_upsert_erase s reg a pid st m t2 t1

/-- C10: a fresh connection carrying a (nonempty) area name registers the
session for that area and pushes it one `pump_status_update`: the
persisted row when one exists, the synthesized default otherwise. -/
theorem connect_registers_and_pushes_status (s : Store) (reg : Registry)
    (a : String) (ws : Session) (now : Nat) (h : a ≠ "") :
    (wsConnection s reg a ws now).1 = mapSet reg a ws
      ∧ (pumpLookup s a = none →
          (wsConnection s reg a ws now).2 = ⟨a, "pump_" ++ a, false, "auto", now⟩)
      ∧ (∀ r : PumpRow, pumpLookup s a = some r →
          (wsConnection s reg a ws now).2 = r) := by
  have hcond : (a == "") = false := by simpa using h
  refine ⟨?_, ?_, ?_⟩
  · simp [wsConnection, hcond]
  · intro hn
    simp [wsConnection, sendPumpStatus, hn]
  · intro r hr
    simp [wsConnection, sendPumpStatus, hr]

/-- Witness for C10: connecting for area `f3`, which has a persisted row;
the session is registered and the row itself is pushed. -/
theorem connect_registers_and_pushes_status_witness :
    (wsConnection ⟨[⟨"f3", "pump_f3", true, "manual", 5⟩], []⟩ [] "f3" ⟨7, 1⟩ 9).1
        = mapSet [] "f3" ⟨7, 1⟩
      ∧ (wsConnection ⟨[⟨"f3", "pump_f3", true, "manual", 5⟩], []⟩ [] "f3" ⟨7, 1⟩ 9).2
        = ⟨"f3", "pump_f3", true, "manual", 5⟩ :=
  ⟨(connect_registers_and_pushes_status
      ⟨[⟨"f3", "pump_f3", true, "manual", 5⟩], []⟩ [] "f3" ⟨7, 1⟩ 9 (by decide)).1,
    (connect_registers_and_pushes_status
      ⟨[⟨"f3", "pump_f3", true, "manual", 5⟩], []⟩ [] "f3" ⟨7, 1⟩ 9 (by decide)).2.2
      ⟨"f3", "pump_f3", true, "manual", 5⟩ (by decide)⟩

end SoilWS
